import Mathlib

/-!
Verification development for the AttentionOS extensibility core:
a shallow embedding of the synchronous event bus
(src/attention/core/event_bus.py) and of the plugin lifecycle manager
(src/attention/core/plugin_manager.py, plugin_interface.py), together
with theorems settling the specification claims about them.

Modelling conventions:
- Python callables are identified by their CPython object identity
  `id(handler)`, modelled as a natural number `handlerId`. Two live
  objects have distinct ids; the same object passed twice has the
  same id.
- Dicts keyed by strings are association lists (`alookup` / `setEntry`
  reproduce lookup and insertion-order-preserving update).
- `datetime.now()` is an external clock; functions that read it take
  an explicit `now : String` argument.
- A handler body is external code. Its only modelled effect is whether
  the call raises an exception, given by an oracle `raises : Nat → Bool`
  indexed by handler identity; the bus catches such exceptions and logs
  the listener's source tag, which the model records in `errorsLogged`.
- Persisting the plugin-config document to disk is modelled by the
  in-memory document `configs` (the exact value `json.dump` writes);
  disk I/O errors are outside the model.
- Python's `list.sort` / `sorted` with a key function is a stable sort;
  it is modelled by `List.mergeSort`, which is a stable merge sort.
-/

attribute [local semireducible] List.mergeSort List.merge

namespace AttentionOS

/-- Listener entry, the dict built in EventBus.on:
id, handler (by object identity), priority, once, source. -/
structure Listener where
  id : String
  handlerId : Nat
  priority : Int
  once : Bool
  source : String
deriving DecidableEq, Repr

/-- Comparison key used by both sorts in the source:
key=lambda h: h["priority"]. -/
def listenerLe (a b : Listener) : Bool :=
  a.priority ≤ b.priority

/-- Record appended to the event history by EventBus._record_history. -/
structure HistoryRecord where
  event : String
  timestamp : String
  dataKeys : List String
deriving DecidableEq, Repr

/-- The value of self._history_limit (set in EventBus.__init__). -/
def historyLimit : Nat := 100

/-- State of an EventBus instance: the per-event listener table
(self._handlers, a defaultdict preserving key insertion order) and the
bounded event history (self._event_history). -/
structure EventBus where
  handlers : List (String × List Listener)
  eventHistory : List HistoryRecord
deriving DecidableEq, Repr

/-- A freshly constructed EventBus (EventBus.__init__). -/
def EventBus.empty : EventBus := ⟨[], []⟩

/-- Python dict lookup d.get(k): first binding of the key, if any. -/
def alookup {β : Type} : List (String × β) → String → Option β
  | [], _ => none
  | (k, v) :: rest, key => if k = key then some v else alookup rest key

/-- Python dict write d[k] = v: overwrite in place if the key exists,
else append the new binding at the end (dicts preserve insertion order). -/
def setEntry {β : Type} : List (String × β) → String → β → List (String × β)
  | [], key, v => [(key, v)]
  | (k, w) :: rest, key, v =>
      if k = key then (k, v) :: rest else (k, w) :: setEntry rest key v

/-- Reading self._handlers.get(event, []). -/
def getHandlers (bus : EventBus) (event : String) : List Listener :=
  (alookup bus.handlers event).getD []

/-- The id string built in EventBus.on:
listener_id = f"{event}:{id(handler)}:{source}". -/
def mkListenerId (event : String) (handlerId : Nat) (source : String) : String :=
  event ++ ":" ++ toString handlerId ++ ":" ++ source

/-- EventBus.on(event, handler, priority, once, source) (source defaults:
priority=100, once=False, source=""): builds the entry, appends it to
self._handlers[event] and re-sorts that list stably by priority.
Returns the updated bus and the returned listener id. -/
def EventBus.on (bus : EventBus) (event : String) (handlerId : Nat)
    (priority : Int) (once : Bool) (source : String) : EventBus × String :=
  let lid := mkListenerId event handlerId source
  let entry : Listener := ⟨lid, handlerId, priority, once, source⟩
  let newList := ((getHandlers bus event) ++ [entry]).mergeSort listenerLe
  ({ bus with handlers := setEntry bus.handlers event newList }, lid)

/-- EventBus.off(event, handler, source): with a handler, drop that event's
entries whose handler is that object; else with a source, drop that event's
entries with that source tag; else clear the event's list. Missing event
key: no change. -/
def EventBus.off (bus : EventBus) (event : String)
    (handlerId : Option Nat) (source : Option String) : EventBus :=
  match alookup bus.handlers event with
  | none => bus
  | some l =>
    let l' := match handlerId with
      | some h => l.filter (fun e => !(e.handlerId == h))
      | none => match source with
        | some s => l.filter (fun e => !(e.source == s))
        | none => []
    { bus with handlers := setEntry bus.handlers event l' }

/-- EventBus.off_all(source): for every event key, drop the entries whose
source tag matches (keys are kept, possibly with empty lists). -/
def EventBus.off_all (bus : EventBus) (source : String) : EventBus :=
  { bus with handlers :=
      bus.handlers.map (fun kv => (kv.1, kv.2.filter (fun e => !(e.source == source)))) }

/-- Python list slice l[s:] for an arbitrary integer start index:
a nonnegative start drops that many elements (capped at the length);
a negative start keeps the last -s elements (capped at the length). -/
def pySliceFrom {α : Type} (l : List α) (s : Int) : List α :=
  if 0 ≤ s then l.drop s.toNat else l.drop (l.length - (-s).toNat)

/-- EventBus._record_history(event, data): append a record (with the
current clock reading and the data keys) and, when the history exceeds
self._history_limit, keep only the slice [-limit:]. -/
def EventBus.record_history (bus : EventBus) (event : String) (now : String)
    (dataKeys : List String) : EventBus :=
  let record : HistoryRecord := ⟨event, now, dataKeys⟩
  let h := bus.eventHistory ++ [record]
  let h' := if historyLimit < h.length then pySliceFrom h (-(historyLimit : Int)) else h
  { bus with eventHistory := h' }

/-- Event payload dict passed to emit (values opaque strings). -/
abbrev Data : Type := List (String × String)

/-- The dispatch for-loop of EventBus.emit over the sorted snapshot:
each entry's handler is called with (event, data); a raising handler is
caught and its (event, source) logged; entries with once=True have their
id collected. Returns (invocations, error log, once_ids), each in loop
order. -/
def dispatchLoop (raises : Nat → Bool) (event : String) (data : Data) :
    List Listener → List (Listener × String × Data) × List (String × String) × List String
  | [] => ([], [], [])
  | e :: rest =>
    let d := dispatchLoop raises event data rest
    ((e, event, data) :: d.1,
     (if raises e.handlerId then [(event, e.source)] else []) ++ d.2.1,
     (if e.once then [e.id] else []) ++ d.2.2)

/-- Removal step of emit's once-cleanup for one key evt_key:
if the key is present, keep only the entries whose id is not in once_ids. -/
def removeOnceFrom (hs : List (String × List Listener)) (key : String)
    (onceIds : List String) : List (String × List Listener) :=
  match alookup hs key with
  | none => hs
  | some l => setEntry hs key (l.filter (fun h => !(onceIds.contains h.id)))

/-- Result of one EventBus.emit call: the bus state after the call, the
handler invocations performed (each with its (event, data) arguments, in
dispatch order), and the (event, source) pairs logged for caught handler
exceptions. -/
structure EmitResult where
  bus : EventBus
  invoked : List (Listener × String × Data)
  errorsLogged : List (String × String)

/-- EventBus.emit(event, data): records the history entry, snapshots the
listeners under the exact event name plus those under the wildcard,
stably sorts the concatenation by priority, runs the dispatch loop
outside the lock, then removes the fired once=True entries (matching by
id) from the event's list and from the wildcard list. -/
def EventBus.emit (bus : EventBus) (event : String) (data : Data)
    (now : String) (raises : Nat → Bool) : EmitResult :=
  let bus1 := bus.record_history event now (data.map Prod.fst)
  let exact := getHandlers bus1 event
  let wildcard := getHandlers bus1 "*"
  let allHandlers := (exact ++ wildcard).mergeSort listenerLe
  let d := dispatchLoop raises event data allHandlers
  let onceIds := d.2.2
  let handlers2 :=
    if onceIds.isEmpty then bus1.handlers
    else removeOnceFrom (removeOnceFrom bus1.handlers event onceIds) "*" onceIds
  ⟨{ bus1 with handlers := handlers2 }, d.1, d.2.1⟩

/-- State effect of an emit call alone. Handler exceptions are caught
inside emit and do not change the registry, so the manager's internal
emit calls are modelled with the trivial oracle. -/
def EventBus.emitState (bus : EventBus) (event : String) (data : Data)
    (now : String) : EventBus :=
  (bus.emit event data now (fun _ => false)).bus

/-- EventBus.get_history(limit): the slice self._event_history[-limit:]. -/
def EventBus.get_history (bus : EventBus) (limit : Int) : List HistoryRecord :=
  pySliceFrom bus.eventHistory (-limit)

/-- Total number of listener entries in the table satisfying a predicate
(summed over every event key). Used to state registry invariants. -/
def mapCountP (p : Listener → Bool) : List (String × List Listener) → Nat
  | [] => 0
  | (_, l) :: rest => l.countP p + mapCountP p rest

/-- Listener count over the whole bus table for a predicate. -/
def EventBus.countP (bus : EventBus) (p : Listener → Bool) : Nat :=
  mapCountP p bus.handlers

/-- A subscription a plugin's activate() installs, i.e. the arguments of
one self.event_bus.on(event, handler, priority=..., once=..., source=...)
call it performs. -/
structure SubReq where
  event : String
  handlerId : Nat
  priority : Int
  once : Bool
  source : String
deriving DecidableEq, Repr

/-- Config dict of a plugin (string keys, integer values). -/
abbrev ConfigDict : Type := List (String × Nat)

/-- A constructed plugin instance (a BasePlugin object) as the manager
sees it through the plugin contract: its metadata name, the dict
returned by get_default_config(), the injected self.config, and the
observable behaviour of its lifecycle methods. activate() performs the
subscriptions in activateSubs in order and then raises activateErrMsg
when activateRaises is set; deactivate() is a bus no-op that raises when
deactivateRaises is set; on_config_changed keeps its BasePlugin default
body (self.config = new_config). -/
structure PluginInstance where
  name : String
  defaultConfig : ConfigDict
  config : ConfigDict
  activateSubs : List SubReq
  activateRaises : Bool
  activateErrMsg : String
  deactivateRaises : Bool
deriving DecidableEq, Repr

/-- Registry entry stored in PluginManager._plugins:
{"instance": ..., "active": ..., "error": ...} (the meta and dir fields
carry no behaviour and are omitted; meta.name is instance.name). -/
structure PluginEntry where
  inst : PluginInstance
  active : Bool
  error : Option String
deriving DecidableEq, Repr

/-- One value of the persisted config document
(data/plugin_configs.json): a dict that may carry an "enabled" key and a
"config" key. -/
structure ConfigRecord where
  enabled : Option Bool
  config : Option ConfigDict
deriving DecidableEq, Repr

/-- A keyword update passed to PluginManager._update_config:
enabled=... or config=.... -/
inductive ConfigUpdate where
  | setEnabled (b : Bool)
  | setConfig (c : ConfigDict)
deriving DecidableEq, Repr

/-- dict.update(updates) on one persisted record for one keyword. -/
def applyUpdate (r : ConfigRecord) : ConfigUpdate → ConfigRecord
  | .setEnabled b => { r with enabled := some b }
  | .setConfig c => { r with config := some c }

/-- State of the PluginManager: the plugin registry self._plugins, the
event bus it owns a reference to, and the persisted config document
self._configs (identified with the file contents it saves). -/
structure PluginManager where
  plugins : List (String × PluginEntry)
  bus : EventBus
  configs : List (String × ConfigRecord)
deriving DecidableEq, Repr

/-- PluginManager._update_config(name, **updates) followed by
_save_configs(): ensure the record exists, update one key, persist. -/
def PluginManager.update_config (m : PluginManager) (name : String)
    (u : ConfigUpdate) : PluginManager :=
  let r := (alookup m.configs name).getD ⟨none, none⟩
  { m with configs := setEntry m.configs name (applyUpdate r u) }

/-- Python dict merge {**d1, **d2}: keys of d1 keep their position, with
values overridden by d2 where present; keys only in d2 follow in d2
order. -/
def pyDictUpdate (d1 d2 : ConfigDict) : ConfigDict :=
  (d1.map (fun kv => match alookup d2 kv.1 with
    | some v => (kv.1, v)
    | none => kv))
  ++ d2.filter (fun kv => (alookup d1 kv.1).isNone)

/-- Effect on the bus of running a plugin's activate() body up to the
point where it returns or raises: the event_bus.on calls it performs. -/
def runActivateSubs (bus : EventBus) (subs : List SubReq) : EventBus :=
  subs.foldl (fun b s => (b.on s.event s.handlerId s.priority s.once s.source).1) bus

/-- PluginManager.is_active(name). -/
def PluginManager.is_active (m : PluginManager) (name : String) : Bool :=
  match alookup m.plugins name with
  | some e => e.active
  | none => false

/-- PluginManager.activate_plugin(name): missing plugin returns False;
an already active plugin returns True; otherwise run the plugin's
activate(). On success mark active, clear the error, persist
enabled=True and emit plugin.activated; if activate() raised, record the
error text on the entry (the subscriptions it installed before raising
stay on the bus), emit plugin.error and return False. -/
def PluginManager.activate_plugin (m : PluginManager) (name : String)
    (now : String) : PluginManager × Bool :=
  match alookup m.plugins name with
  | none => (m, false)
  | some entry =>
    if entry.active then (m, true)
    else
      let bus1 := runActivateSubs m.bus entry.inst.activateSubs
      if entry.inst.activateRaises then
        let entry' := { entry with error := some entry.inst.activateErrMsg }
        let m1 := { m with bus := bus1, plugins := setEntry m.plugins name entry' }
        let errData : Data := [("name", name), ("error", entry.inst.activateErrMsg)]
        let m2 := { m1 with bus := m1.bus.emitState "plugin.error" errData now }
        (m2, false)
      else
        let entry' := { entry with active := true, error := none }
        let m1 := { m with bus := bus1, plugins := setEntry m.plugins name entry' }
        let m2 := m1.update_config name (.setEnabled true)
        let m3 := { m2 with bus := m2.bus.emitState "plugin.activated" [("name", name)] now }
        (m3, true)

/-- PluginManager.deactivate_plugin(name): missing plugin returns False;
an inactive plugin returns True; otherwise call the plugin's
deactivate() (an exception there is caught and logged), then
unconditionally remove every listener tagged with the plugin name via
off_all, mark inactive, clear the error, persist enabled=False and emit
plugin.deactivated. -/
def PluginManager.deactivate_plugin (m : PluginManager) (name : String)
    (now : String) : PluginManager × Bool :=
  match alookup m.plugins name with
  | none => (m, false)
  | some entry =>
    if !entry.active then (m, true)
    else
      let bus1 := m.bus.off_all name
      let entry' := { entry with active := false, error := none }
      let m1 := { m with bus := bus1, plugins := setEntry m.plugins name entry' }
      let m2 := m1.update_config name (.setEnabled false)
      let m3 := { m2 with bus := m2.bus.emitState "plugin.deactivated" [("name", name)] now }
      (m3, true)

/-- PluginManager.update_plugin_config(name, new_config): merge the
partial dict over the current in-memory config, store it on the
instance, run on_config_changed(merged) (BasePlugin default body:
self.config = merged; an exception there would be caught and logged),
then persist config=merged. -/
def PluginManager.update_plugin_config (m : PluginManager) (name : String)
    (newConfig : ConfigDict) : PluginManager × Bool :=
  match alookup m.plugins name with
  | none => (m, false)
  | some entry =>
    let merged := pyDictUpdate entry.inst.config newConfig
    let inst' := { entry.inst with config := merged }
    let entry' := { entry with inst := inst' }
    let m1 := { m with plugins := setEntry m.plugins name entry' }
    let m2 := m1.update_config name (.setConfig merged)
    (m2, true)

/-- One attribute of a loaded plugin module as PluginManager._load_plugin
inspects it: its name in dir(module), whether it is a type, whether that
type subclasses BasePlugin, whether it is the BasePlugin class itself,
whether its __module__ equals the isolated module name (locally
defined), and the instance its zero-argument construction yields. -/
structure ModuleAttr where
  attrName : String
  isType : Bool
  subclassOfBasePlugin : Bool
  isBasePluginItself : Bool
  definedInModule : Bool
  instanceOf : PluginInstance
deriving DecidableEq, Repr

/-- Python str.startswith with a one-character prefix, read off the
string's character list. -/
def startsWithChar (s : String) (c : Char) : Bool :=
  match s.data with
  | [] => false
  | a :: _ => a == c

/-- Filter applied to each attribute in _load_plugin's search loop. -/
def qualifies (a : ModuleAttr) : Bool :=
  a.isType && a.subclassOfBasePlugin && !a.isBasePluginItself
    && !(startsWithChar a.attrName '_') && a.definedInModule

/-- Lexicographic code-point order on character lists, modelling how
Python compares the attribute-name strings that dir() sorts. -/
def charListLe : List Char → List Char → Bool
  | [], _ => true
  | _ :: _, [] => false
  | a :: as, b :: bs =>
      if a.val < b.val then true
      else if b.val < a.val then false
      else charListLe as bs

/-- Code-point order on strings. -/
def strLe (a b : String) : Bool := charListLe a.data b.data

/-- Attribute-name order used to model dir(module), which returns the
attribute names sorted alphabetically. -/
def attrNameLe (a b : ModuleAttr) : Bool :=
  strLe a.attrName b.attrName

/-- Search loop of _load_plugin: scan dir(module) in sorted-name order
and take the first attribute passing the filter (the loop breaks at the
first hit). -/
def findPluginClass (attrs : List ModuleAttr) : Option ModuleAttr :=
  (attrs.mergeSort attrNameLe).find? qualifies

/-- A candidate plugin unit as discover_plugins encounters it: the
subdirectory name, whether the candidate is a directory, whether it
contains a plugin.py entry point, and the attributes of the module that
executing that file yields. -/
structure PluginUnit where
  dirName : String
  isDir : Bool
  hasPluginFile : Bool
  attrs : List ModuleAttr
deriving Repr

/-- Registration tail of PluginManager._load_plugin, from the constructed
instance on: a name collision leaves the registry untouched; otherwise
inject the merged config (persisted over declared defaults), append the
registry entry (inactive, no error), auto-activate when the persisted
record says enabled=True, and emit plugin.loaded. -/
def PluginManager.register_plugin (m : PluginManager) (inst : PluginInstance)
    (now : String) : PluginManager :=
  let name := inst.name
  if (alookup m.plugins name).isSome then m
  else
    let saved := match alookup m.configs name with
      | some r => r.config.getD []
      | none => []
    let merged := pyDictUpdate inst.defaultConfig saved
    let inst' := { inst with config := merged }
    let newEntry : PluginEntry := ⟨inst', false, none⟩
    let m1 := { m with plugins := m.plugins ++ [(name, newEntry)] }
    let enabled := match alookup m1.configs name with
      | some r => r.enabled.getD false
      | none => false
    let m2 := if enabled then (m1.activate_plugin name now).1 else m1
    { m2 with bus := m2.bus.emitState "plugin.loaded" [("name", name), ("meta", name)] now }

/-- PluginManager._load_plugin(dir_name, plugin_file) on an importable
unit: find the BasePlugin subclass among the module's attributes; none
found raises ImportError, otherwise instantiate it and register. -/
def PluginManager.load_plugin (m : PluginManager) (u : PluginUnit)
    (now : String) : Except String PluginManager :=
  match findPluginClass u.attrs with
  | none => .error "BasePlugin subclass not found"
  | some a => .ok (m.register_plugin a.instanceOf now)

/-- Loop body of PluginManager.discover_plugins for one directory entry:
skip non-directories, names starting with an underscore or a dot, and
directories without a plugin.py; otherwise try _load_plugin, catching
and logging any exception so discovery continues. -/
def PluginManager.processUnit (m : PluginManager) (u : PluginUnit)
    (now : String) : PluginManager :=
  if !u.isDir || startsWithChar u.dirName '_' || startsWithChar u.dirName '.'
      || !u.hasPluginFile then m
  else
    match m.load_plugin u now with
    | .ok m' => m'
    | .error _ => m

/-- PluginManager.discover_plugins over one plugin directory, whose
entries arrive in sorted(plugin_dir.iterdir()) order. -/
def PluginManager.discover_plugins (m : PluginManager) (units : List PluginUnit)
    (now : String) : PluginManager :=
  units.foldl (fun acc u => acc.processUnit u now) m

/-- Iterated publishes (with distinct event names and clock readings),
used to state the history-retention scenario of the spec. -/
def emitN (n : Nat) (bus : EventBus) : EventBus :=
  (List.range n).foldl
    (fun b i => (b.emit ("e" ++ toString i) [] (toString i) (fun _ => false)).bus) bus

/-! Concrete fixtures used by the closed scenarios below. -/

/-- A plugin whose activate() subscribes one listener tagged with its own
name and then raises. -/
def instLeaky : PluginInstance :=
  ⟨"p", [], [], [⟨"e", 7, 100, false, "p"⟩], true, "boom", false⟩

/-- A manager that has registered instLeaky (inactive) on a fresh bus. -/
def mgrLeaky : PluginManager :=
  ⟨[("p", ⟨instLeaky, false, none⟩)], EventBus.empty, []⟩

/-- Two contract-implementing classes defined locally in one plugin
module, with their constructed instances. -/
def instAlpha : PluginInstance := ⟨"alpha", [], [], [], false, "", false⟩

def instBeta : PluginInstance := ⟨"beta", [], [], [], false, "", false⟩

def attrAlpha : ModuleAttr := ⟨"AlphaPlugin", true, true, false, true, instAlpha⟩

def attrBeta : ModuleAttr := ⟨"BetaPlugin", true, true, false, true, instBeta⟩

/-- A plugin unit whose module defines two BasePlugin subclasses. -/
def unitDup : PluginUnit := ⟨"dup_unit", true, true, [attrAlpha, attrBeta]⟩

/-- A module attribute that does not qualify (a plain function, say). -/
def attrPlain : ModuleAttr := ⟨"helper", false, false, false, true, instAlpha⟩

/-- A plugin unit whose module defines no BasePlugin subclass. -/
def unitEmptyMod : PluginUnit := ⟨"no_class", true, true, [attrPlain]⟩

/-- A manager with nothing registered. -/
def mgrEmpty : PluginManager := ⟨[], EventBus.empty, []⟩

/-- A plugin with declared config defaults a=1, b=2 and a no-op
lifecycle. -/
def instCfg : PluginInstance := ⟨"p", [("a", 1), ("b", 2)], [], [], false, "", false⟩

/-- A manager whose persisted document carries config a=9 for that
plugin. -/
def mgrCfg : PluginManager := ⟨[], EventBus.empty, [("p", ⟨none, some [("a", 9)]⟩)]⟩

/-- A plugin that is a no-op except that its deactivate() raises. -/
def instTeardown : PluginInstance := ⟨"q", [], [], [⟨"x", 3, 100, false, "q"⟩], false, "", true⟩

/-- A manager holding instTeardown in the active state, with the
listener its activate() installed present on the bus. -/
def mgrActive : PluginManager :=
  ⟨[("q", ⟨instTeardown, true, none⟩)],
   (EventBus.empty.on "x" 3 100 false "q").1, [("q", ⟨some true, none⟩)]⟩

/-! Helper lemmas about the association-list and sorting primitives. -/

theorem alookup_setEntry_self {β : Type} (hs : List (String × β)) (k : String) (v : β) :
    alookup (setEntry hs k v) k = some v := by
  induction hs with
  | nil => simp [setEntry, alookup]
  | cons kv rest ih =>
    by_cases h : kv.1 = k
    · simp [setEntry, alookup, h]
    · simp [setEntry, alookup, h, ih]

theorem alookup_setEntry_ne {β : Type} (hs : List (String × β)) (k k' : String) (v : β)
    (hne : k' ≠ k) : alookup (setEntry hs k v) k' = alookup hs k' := by
  induction hs with
  | nil => simp [setEntry, alookup, Ne.symm hne]
  | cons kv rest ih =>
    by_cases h : kv.1 = k
    · subst h
      simp [setEntry, alookup, Ne.symm hne]
    · simp only [setEntry, if_neg h]
      by_cases h2 : kv.1 = k'
      · simp [alookup, h2]
      · simp [alookup, h2, ih]

theorem listenerLe_trans (a b c : Listener) (hab : listenerLe a b = true)
    (hbc : listenerLe b c = true) : listenerLe a c = true := by
  simp only [listenerLe, decide_eq_true_eq] at *
  omega

theorem listenerLe_total (a b : Listener) : (listenerLe a b || listenerLe b a) = true := by
  simp only [listenerLe, Bool.or_eq_true, decide_eq_true_eq]
  omega

theorem countP_mergeSort (p : Listener → Bool) (l : List Listener) :
    (l.mergeSort listenerLe).countP p = l.countP p :=
  (List.mergeSort_perm l listenerLe).countP_eq p

theorem mem_mergeSort_listener {x : Listener} {l : List Listener} :
    x ∈ l.mergeSort listenerLe ↔ x ∈ l :=
  (List.mergeSort_perm l listenerLe).mem_iff

theorem mapCountP_setEntry_some (p : Listener → Bool)
    (hs : List (String × List Listener)) (k : String) (l v : List Listener)
    (hl : alookup hs k = some l) :
    mapCountP p (setEntry hs k v) + l.countP p = mapCountP p hs + v.countP p := by
  induction hs with
  | nil => simp [alookup] at hl
  | cons kv rest ih =>
    by_cases h : kv.1 = k
    · simp only [alookup, if_pos h] at hl
      cases hl
      simp only [setEntry, if_pos h, mapCountP]
      omega
    · simp only [alookup, if_neg h] at hl
      simp only [setEntry, if_neg h, mapCountP]
      have := ih hl
      omega

theorem mapCountP_setEntry_none (p : Listener → Bool)
    (hs : List (String × List Listener)) (k : String) (v : List Listener)
    (hl : alookup hs k = none) :
    mapCountP p (setEntry hs k v) = mapCountP p hs + v.countP p := by
  induction hs with
  | nil => simp [setEntry, mapCountP]
  | cons kv rest ih =>
    by_cases h : kv.1 = k
    · simp [alookup, if_pos h] at hl
    · simp only [alookup, if_neg h] at hl
      simp only [setEntry, if_neg h, mapCountP]
      have := ih hl
      omega

theorem alookup_countP_le (p : Listener → Bool)
    (hs : List (String × List Listener)) (k : String) (l : List Listener)
    (hl : alookup hs k = some l) : l.countP p ≤ mapCountP p hs := by
  induction hs with
  | nil => simp [alookup] at hl
  | cons kv rest ih =>
    by_cases h : kv.1 = k
    · simp only [alookup, if_pos h] at hl
      cases hl
      simp only [mapCountP]
      omega
    · simp only [alookup, if_neg h] at hl
      have := ih hl
      simp only [mapCountP]
      omega

theorem getHandlers_countP_le (bus : EventBus) (e : String) (p : Listener → Bool) :
    (getHandlers bus e).countP p ≤ bus.countP p := by
  unfold getHandlers EventBus.countP
  cases hl : alookup bus.handlers e with
  | none => simp [List.countP_nil]
  | some l => simpa using alookup_countP_le p bus.handlers e l hl

/-! Lemmas about EventBus.on. -/

theorem getHandlers_on_self (bus : EventBus) (e : String) (h : Nat) (pr : Int)
    (o : Bool) (s : String) :
    getHandlers (bus.on e h pr o s).1 e
      = ((getHandlers bus e)
          ++ [(⟨mkListenerId e h s, h, pr, o, s⟩ : Listener)]).mergeSort listenerLe := by
  unfold EventBus.on getHandlers
  simp [alookup_setEntry_self]

theorem getHandlers_on_ne (bus : EventBus) (e e' : String) (h : Nat) (pr : Int)
    (o : Bool) (s : String) (hne : e' ≠ e) :
    getHandlers (bus.on e h pr o s).1 e' = getHandlers bus e' := by
  unfold EventBus.on getHandlers
  simp [alookup_setEntry_ne _ _ _ _ hne]

theorem countP_on (bus : EventBus) (e : String) (h : Nat) (pr : Int)
    (o : Bool) (s : String) (p : Listener → Bool) :
    ((bus.on e h pr o s).1).countP p
      = bus.countP p + (if p (⟨mkListenerId e h s, h, pr, o, s⟩ : Listener) then 1 else 0) := by
  unfold EventBus.on EventBus.countP
  simp only
  cases hl : alookup bus.handlers e with
  | none =>
    rw [mapCountP_setEntry_none p _ _ _ hl, countP_mergeSort]
    have hg : getHandlers bus e = [] := by unfold getHandlers; rw [hl]; rfl
    rw [hg, List.nil_append]
    by_cases hp : p (⟨mkListenerId e h s, h, pr, o, s⟩ : Listener) <;>
      simp [List.countP_cons, List.countP_nil, hp]
  | some l =>
    have heq := mapCountP_setEntry_some p bus.handlers e l
      (((getHandlers bus e)
        ++ [(⟨mkListenerId e h s, h, pr, o, s⟩ : Listener)]).mergeSort listenerLe) hl
    rw [countP_mergeSort, List.countP_append] at heq
    have hg : getHandlers bus e = l := by unfold getHandlers; rw [hl]; rfl
    rw [hg] at heq ⊢
    by_cases hp : p (⟨mkListenerId e h s, h, pr, o, s⟩ : Listener) <;>
      simp only [List.countP_cons, List.countP_nil, hp] <;>
      simp only [List.countP_cons, List.countP_nil, hp] at heq <;>
      simp at heq ⊢ <;> omega

/-! Lemmas about the once-cleanup and the emit state change. -/

theorem mapCountP_removeOnceFrom_le (p : Listener → Bool)
    (hs : List (String × List Listener)) (k : String) (ids : List String) :
    mapCountP p (removeOnceFrom hs k ids) ≤ mapCountP p hs := by
  cases hl : alookup hs k with
  | none => unfold removeOnceFrom; simp only [hl]; exact le_refl _
  | some l =>
    unfold removeOnceFrom
    simp only [hl]
    have heq := mapCountP_setEntry_some p hs k l
      (l.filter (fun h => !(ids.contains h.id))) hl
    have hle : (l.filter (fun h => !(ids.contains h.id))).countP p ≤ l.countP p :=
      (List.filter_sublist l).countP_le p
    omega

theorem alookup_removeOnceFrom_ne (hs : List (String × List Listener))
    (k k' : String) (ids : List String) (hne : k' ≠ k) :
    alookup (removeOnceFrom hs k ids) k' = alookup hs k' := by
  cases hl : alookup hs k with
  | none => unfold removeOnceFrom; simp only [hl]
  | some l =>
    unfold removeOnceFrom
    simp only [hl]
    exact alookup_setEntry_ne _ _ _ _ hne

theorem emit_bus_handlers (bus : EventBus) (event : String) (data : Data)
    (now : String) (raises : Nat → Bool) :
    (bus.emit event data now raises).bus.handlers
      = (let onceIds := (dispatchLoop raises event data
            (((getHandlers bus event) ++ (getHandlers bus "*")).mergeSort listenerLe)).2.2
         if onceIds.isEmpty then bus.handlers
         else removeOnceFrom (removeOnceFrom bus.handlers event onceIds) "*" onceIds) := rfl

theorem countP_emit_le (bus : EventBus) (event : String) (data : Data)
    (now : String) (raises : Nat → Bool) (p : Listener → Bool) :
    (bus.emit event data now raises).bus.countP p ≤ bus.countP p := by
  unfold EventBus.countP
  rw [emit_bus_handlers]
  simp only
  by_cases hemp : (dispatchLoop raises event data
      (((getHandlers bus event) ++ (getHandlers bus "*")).mergeSort listenerLe)).2.2.isEmpty
  · simp [hemp]
  · simp only [hemp, if_neg, Bool.false_eq_true, not_false_iff]
    calc mapCountP p (removeOnceFrom (removeOnceFrom bus.handlers event _) "*" _)
        ≤ mapCountP p (removeOnceFrom bus.handlers event _) :=
          mapCountP_removeOnceFrom_le _ _ _ _
      _ ≤ mapCountP p bus.handlers := mapCountP_removeOnceFrom_le _ _ _ _

theorem countP_emitState_le (bus : EventBus) (event : String) (data : Data)
    (now : String) (p : Listener → Bool) :
    (bus.emitState event data now).countP p ≤ bus.countP p :=
  countP_emit_le bus event data now (fun _ => false) p

theorem countP_emitState_zero (bus : EventBus) (event : String) (data : Data)
    (now : String) (p : Listener → Bool) (h0 : bus.countP p = 0) :
    (bus.emitState event data now).countP p = 0 :=
  Nat.le_zero.mp (h0 ▸ countP_emitState_le bus event data now p)

/-! Lemmas about off_all. -/

theorem countP_off_all (bus : EventBus) (s : String) :
    (bus.off_all s).countP (fun x => x.source == s) = 0 := by
  unfold EventBus.off_all EventBus.countP
  simp only
  induction bus.handlers with
  | nil => rfl
  | cons kv rest ih =>
    simp only [List.map_cons, mapCountP, ih, Nat.add_zero]
    rw [List.countP_eq_zero]
    intro a ha
    rw [List.mem_filter] at ha
    simpa using ha.2

/-! Characterization of the dispatch loop and of emit's outputs. -/

theorem dispatchLoop_spec (raises : Nat → Bool) (event : String) (data : Data)
    (l : List Listener) :
    dispatchLoop raises event data l
      = (l.map (fun e => (e, event, data)),
         (l.filter (fun e => raises e.handlerId)).map (fun e => (event, e.source)),
         (l.filter (fun e => e.once)).map (fun e => e.id)) := by
  induction l with
  | nil => rfl
  | cons e rest ih =>
    simp only [dispatchLoop, ih, List.map_cons, List.filter_cons]
    by_cases hr : raises e.handlerId <;> by_cases ho : e.once <;> simp [hr, ho]

theorem getHandlers_record (bus : EventBus) (event e : String) (now : String)
    (dataKeys : List String) :
    getHandlers (bus.record_history event now dataKeys) e = getHandlers bus e := rfl

theorem emit_invoked (bus : EventBus) (event : String) (data : Data)
    (now : String) (raises : Nat → Bool) :
    (bus.emit event data now raises).invoked
      = (((getHandlers bus event) ++ (getHandlers bus "*")).mergeSort listenerLe).map
          (fun e => (e, event, data)) := by
  unfold EventBus.emit
  simp only [dispatchLoop_spec]
  rfl

theorem emit_errorsLogged (bus : EventBus) (event : String) (data : Data)
    (now : String) (raises : Nat → Bool) :
    (bus.emit event data now raises).errorsLogged
      = ((((getHandlers bus event) ++ (getHandlers bus "*")).mergeSort listenerLe).filter
          (fun e => raises e.handlerId)).map (fun e => (event, e.source)) := by
  unfold EventBus.emit
  simp only [dispatchLoop_spec]
  rfl

theorem emit_onceIds (bus : EventBus) (event : String) (data : Data)
    (now : String) (raises : Nat → Bool) :
    (dispatchLoop raises event data
        (((getHandlers bus event) ++ (getHandlers bus "*")).mergeSort listenerLe)).2.2
      = ((((getHandlers bus event) ++ (getHandlers bus "*")).mergeSort listenerLe).filter
          (fun e => e.once)).map (fun e => e.id) := by
  rw [dispatchLoop_spec]

theorem emit_bus_eventHistory (bus : EventBus) (event : String) (data : Data)
    (now : String) (raises : Nat → Bool) :
    (bus.emit event data now raises).bus.eventHistory
      = (bus.record_history event now (data.map Prod.fst)).eventHistory := by
  unfold EventBus.emit
  by_cases hemp : (dispatchLoop raises event data
      (((getHandlers bus event) ++ (getHandlers bus "*")).mergeSort listenerLe)).2.2.isEmpty <;>
    simp only [hemp, if_pos, if_neg]

/-- Stable sorting by priority does not reorder or change the subsequence
of entries picked out by a predicate that forces equal priorities. -/
theorem filter_mergeSort_listenerLe (q : Listener → Bool) (l : List Listener)
    (hq : ∀ a b, q a = true → q b = true → listenerLe a b = true) :
    (l.mergeSort listenerLe).filter q = l.filter q := by
  have hpair : (l.filter q).Pairwise (fun a b => listenerLe a b = true) :=
    List.pairwise_of_forall_mem_list (fun a ha b hb =>
      hq a b (List.mem_filter.mp ha).2 (List.mem_filter.mp hb).2)
  have hsub : List.Sublist (l.filter q) (l.mergeSort listenerLe) :=
    List.sublist_mergeSort listenerLe_trans listenerLe_total hpair (List.filter_sublist l)
  have hsub2 : List.Sublist ((l.filter q).filter q) ((l.mergeSort listenerLe).filter q) :=
    hsub.filter q
  rw [List.filter_eq_self.mpr (fun a ha => (List.mem_filter.mp ha).2)] at hsub2
  have hlen : ((l.mergeSort listenerLe).filter q).length = (l.filter q).length := by
    rw [← List.countP_eq_length_filter, ← List.countP_eq_length_filter]
    exact countP_mergeSort q l
  exact (hsub2.eq_of_length hlen.symm).symm

theorem filter_mergeSort_priority (l : List Listener) (p : Int) :
    (l.mergeSort listenerLe).filter (fun e => e.priority == p)
      = l.filter (fun e => e.priority == p) := by
  apply filter_mergeSort_listenerLe
  intro a b ha hb
  simp only [beq_iff_eq] at ha hb
  simp [listenerLe, ha, hb]

theorem alookup_on_self (bus : EventBus) (e : String) (h : Nat) (pr : Int)
    (o : Bool) (s : String) :
    alookup ((bus.on e h pr o s).1).handlers e
      = some (((getHandlers bus e)
          ++ [(⟨mkListenerId e h s, h, pr, o, s⟩ : Listener)]).mergeSort listenerLe) := by
  unfold EventBus.on
  simp [alookup_setEntry_self]

theorem emit_bus_handlers_cases (bus : EventBus) (event : String) (data : Data)
    (now : String) (raises : Nat → Bool) :
    (bus.emit event data now raises).bus.handlers
      = (let onceIds := ((((getHandlers bus event) ++ (getHandlers bus "*")).mergeSort
            listenerLe).filter (fun e => e.once)).map (fun e => e.id)
         if onceIds.isEmpty then bus.handlers
         else removeOnceFrom (removeOnceFrom bus.handlers event onceIds) "*" onceIds) := by
  unfold EventBus.emit
  simp only [dispatchLoop_spec]
  rfl

/-! Claim theorems. -/

/-- C1, counterexample: two subscribe calls sharing the same event,
handler object and source return the same listener id, and the listener
table then holds two entries with that id — refuting both the
no-duplicate-id invariant and the distinct-return claim at a concrete
input. -/
theorem C1_counterexample :
    ((EventBus.empty.on "e" 5 100 false "s").1.on "e" 5 100 false "s").2
      = (EventBus.empty.on "e" 5 100 false "s").2
    ∧ (getHandlers ((EventBus.empty.on "e" 5 100 false "s").1.on "e" 5 100 false "s").1 "e").countP
        (fun x => x.id == (EventBus.empty.on "e" 5 100 false "s").2) = 2 := by
  decide

/-- C1, amended: subscribe returns the id string event:id(handler):source,
so the id depends only on the (event, handler identity, source) triple;
from any bus state, two subscribe calls sharing that triple return equal
ids and leave at least two entries with that id in the event's listener
list. -/
theorem C1_amended (bus : EventBus) (event : String) (h : Nat) (s : String)
    (p1 p2 : Int) (o1 o2 : Bool) :
    (bus.on event h p1 o1 s).2 = mkListenerId event h s
    ∧ ((bus.on event h p1 o1 s).1.on event h p2 o2 s).2 = (bus.on event h p1 o1 s).2
    ∧ 2 ≤ (getHandlers ((bus.on event h p1 o1 s).1.on event h p2 o2 s).1 event).countP
        (fun x => x.id == mkListenerId event h s) := by
  refine ⟨rfl, rfl, ?_⟩
  rw [getHandlers_on_self, countP_mergeSort, List.countP_append,
    getHandlers_on_self, countP_mergeSort, List.countP_append]
  simp [List.countP_cons, List.countP_nil]

/-- C10: getHistory(0) returns the entire stored history, because the
implementation slices with a negated limit and the slice [-0:] selects
the whole list. -/
theorem C10_get_history_zero (bus : EventBus) :
    bus.get_history 0 = bus.eventHistory := by
  unfold EventBus.get_history pySliceFrom
  norm_num

/-- C6: every listener in the dispatch snapshot is invoked with the same
(event, data) arguments regardless of which handlers raise; the handler
invocations and the resulting bus state are identical to a run where no
handler raises (exceptions are caught, so dispatch continues and publish
returns normally), and each raising listener contributes exactly one log
record carrying its source tag, in dispatch order. -/
theorem C6_dispatch_fault_isolation (bus : EventBus) (event : String)
    (data : Data) (now : String) (raises : Nat → Bool) :
    (bus.emit event data now raises).invoked
      = (bus.emit event data now (fun _ => false)).invoked
    ∧ (bus.emit event data now raises).bus = (bus.emit event data now (fun _ => false)).bus
    ∧ (∀ t ∈ (bus.emit event data now raises).invoked, t.2.1 = event ∧ t.2.2 = data)
    ∧ (bus.emit event data now raises).errorsLogged
        = ((((getHandlers bus event) ++ (getHandlers bus "*")).mergeSort listenerLe).filter
            (fun e => raises e.handlerId)).map (fun e => (event, e.source)) := by
  refine ⟨?_, ?_, ?_, emit_errorsLogged bus event data now raises⟩
  · rw [emit_invoked, emit_invoked]
  · unfold EventBus.emit
    simp only [dispatchLoop_spec]
  · intro t ht
    rw [emit_invoked] at ht
    rcases List.mem_map.mp ht with ⟨e, _, rfl⟩
    exact ⟨rfl, rfl⟩

/-- C4, counterexample: with a wildcard listener (handler 1) registered
before a same-event listener (handler 2) at equal priority 5, publishing
the event dispatches the same-event listener first — the registration
sequence is not the tie-break over the whole merged set, refuting the
claimed ordering at a concrete input. -/
theorem C4_counterexample :
    ((((EventBus.empty.on "*" 1 5 false "w").1.on "e" 2 5 false "x").1.emit "e" [] "t"
        (fun _ => false)).invoked.map (fun t => t.1.handlerId) = [2, 1])
    ∧ ¬ ((((EventBus.empty.on "*" 1 5 false "w").1.on "e" 2 5 false "x").1.emit "e" [] "t"
        (fun _ => false)).invoked.map (fun t => t.1.handlerId) = [1, 2]) := by
  decide

/-- C4, amended: publish dispatches the snapshot of same-event listeners
merged with wildcard listeners, sorted by priority ascending; among
listeners of equal priority the same-event group runs before the
wildcard group, and registration order is preserved within each group
(subscribing appends the new entry after the existing entries of its
priority). The spec's two worked examples hold: priorities [10,5,5,20]
registered in that order dispatch as [5 (1st), 5 (2nd), 10, 20], and a
wildcard listener of priority 1 runs before a same-event listener of
priority 100. -/
theorem C4_amended :
    (((((((EventBus.empty.on "ev" 1 10 false "").1.on "ev" 2 5 false "").1.on
          "ev" 3 5 false "").1.on "ev" 4 20 false "").1).emit "ev" [] "t"
        (fun _ => false)).invoked.map (fun t => t.1.handlerId) = [2, 3, 1, 4])
    ∧ ((((EventBus.empty.on "e" 1 100 false "").1.on "*" 2 1 false "").1.emit "e" [] "t"
        (fun _ => false)).invoked.map (fun t => t.1.handlerId) = [2, 1])
    ∧ (∀ (bus : EventBus) (event : String) (data : Data) (now : String) (raises : Nat → Bool),
        (bus.emit event data now raises).invoked
          = (((getHandlers bus event) ++ (getHandlers bus "*")).mergeSort listenerLe).map
              (fun e => (e, event, data))
        ∧ ((bus.emit event data now raises).invoked.map (fun t => t.1)).Pairwise
            (fun a b => a.priority ≤ b.priority))
    ∧ (∀ (bus : EventBus) (event : String) (data : Data) (now : String) (raises : Nat → Bool)
        (p : Int),
        ((bus.emit event data now raises).invoked.map (fun t => t.1)).filter
            (fun e => e.priority == p)
          = (getHandlers bus event).filter (fun e => e.priority == p)
            ++ (getHandlers bus "*").filter (fun e => e.priority == p))
    ∧ (∀ (bus : EventBus) (event : String) (h : Nat) (pr : Int) (o : Bool) (src : String),
        (getHandlers (bus.on event h pr o src).1 event).filter (fun e => e.priority == pr)
          = (getHandlers bus event).filter (fun e => e.priority == pr)
            ++ [(⟨mkListenerId event h src, h, pr, o, src⟩ : Listener)]) := by
  refine ⟨by decide, by decide, ?_, ?_, ?_⟩
  · intro bus event data now raises
    refine ⟨emit_invoked bus event data now raises, ?_⟩
    rw [emit_invoked]
    rw [List.map_map]
    have hmm : (fun t => t.1) ∘ (fun e => ((e : Listener), event, data)) = id := rfl
    rw [hmm, List.map_id]
    have hs := List.sorted_mergeSort listenerLe_trans listenerLe_total
      ((getHandlers bus event) ++ (getHandlers bus "*"))
    exact hs.imp (fun hab => by simpa [listenerLe] using hab)
  · intro bus event data now raises p
    rw [emit_invoked, List.map_map]
    have hmm : (fun t => t.1) ∘ (fun e => ((e : Listener), event, data)) = id := rfl
    rw [hmm, List.map_id, filter_mergeSort_priority, List.filter_append]
  · intro bus event h pr o src
    rw [getHandlers_on_self, filter_mergeSort_priority, List.filter_append]
    simp

/-- C7, counterexample: a once listener subscribed on the wildcard event
and published via the wildcard event name appears in both halves of the
snapshot (exact plus wildcard), so the first publish invokes its handler
twice, not exactly once, refuting the claim at the concrete input E set
to the wildcard token. -/
theorem C7_counterexample :
    (((EventBus.empty.on "*" 1 100 true "s").1.emit "*" [] "t" (fun _ => false)).invoked.countP
        (fun t => t.1.handlerId == 1) = 2)
    ∧ ¬ (((EventBus.empty.on "*" 1 100 true "s").1.emit "*" [] "t" (fun _ => false)).invoked.countP
        (fun t => t.1.handlerId == 1) = 1) := by
  decide

/-- C7, amended: for a subscription event other than the wildcard token,
a once listener with a fresh handler object fires exactly once on the
first publish after subscribing, is removed from the registry after the
full dispatch pass (removal matches by id), and a second publish with no
intervening registry mutation does not invoke it again. -/
theorem C7_amended (bus : EventBus) (E : String) (h : Nat) (pr : Int) (s : String)
    (data data2 : Data) (now now2 : String) (raises raises2 : Nat → Bool)
    (hE : E ≠ "*")
    (hfresh : bus.countP (fun x => x.handlerId == h) = 0) :
    (((bus.on E h pr true s).1.emit E data now raises).invoked.countP
        (fun t => t.1.handlerId == h) = 1)
    ∧ (((bus.on E h pr true s).1.emit E data now raises).bus.countP
        (fun x => x.handlerId == h) = 0)
    ∧ ((((bus.on E h pr true s).1.emit E data now raises).bus.emit E data2 now2
        raises2).invoked.countP (fun t => t.1.handlerId == h) = 0) := by
  have hentryP : (fun x : Listener => x.handlerId == h)
      (⟨mkListenerId E h s, h, pr, true, s⟩ : Listener) = true := by simp
  have hexact : getHandlers (bus.on E h pr true s).1 E
      = ((getHandlers bus E)
          ++ [(⟨mkListenerId E h s, h, pr, true, s⟩ : Listener)]).mergeSort listenerLe :=
    getHandlers_on_self bus E h pr true s
  have hwild : getHandlers (bus.on E h pr true s).1 "*" = getHandlers bus "*" :=
    getHandlers_on_ne bus E "*" h pr true s (Ne.symm hE)
  have hbaseE : (getHandlers bus E).countP (fun x => x.handlerId == h) = 0 :=
    Nat.le_zero.mp (hfresh ▸ getHandlers_countP_le bus E (fun x => x.handlerId == h))
  have hbaseW : (getHandlers bus "*").countP (fun x => x.handlerId == h) = 0 :=
    Nat.le_zero.mp (hfresh ▸ getHandlers_countP_le bus "*" (fun x => x.handlerId == h))
  have hexactC : (getHandlers (bus.on E h pr true s).1 E).countP
      (fun x => x.handlerId == h) = 1 := by
    rw [hexact, countP_mergeSort, List.countP_append, hbaseE]
    simp [List.countP_cons, List.countP_nil]
  have hwildC : (getHandlers (bus.on E h pr true s).1 "*").countP
      (fun x => x.handlerId == h) = 0 := by rw [hwild]; exact hbaseW
  have hcomp : ((fun t : Listener × String × Data => t.1.handlerId == h)
      ∘ (fun e : Listener => (e, E, data))) = (fun x : Listener => x.handlerId == h) := rfl
  have hfirst : ((bus.on E h pr true s).1.emit E data now raises).invoked.countP
      (fun t => t.1.handlerId == h) = 1 := by
    rw [emit_invoked, List.countP_map, hcomp, countP_mergeSort, List.countP_append,
      hexactC, hwildC]
  have hmemA : (⟨mkListenerId E h s, h, pr, true, s⟩ : Listener)
      ∈ ((getHandlers (bus.on E h pr true s).1 E
          ++ getHandlers (bus.on E h pr true s).1 "*").mergeSort listenerLe) := by
    rw [mem_mergeSort_listener, List.mem_append, hexact, mem_mergeSort_listener,
      List.mem_append]
    exact Or.inl (Or.inr (List.mem_singleton.mpr rfl))
  have hidin : mkListenerId E h s
      ∈ (((getHandlers (bus.on E h pr true s).1 E
          ++ getHandlers (bus.on E h pr true s).1 "*").mergeSort listenerLe).filter
          (fun e => e.once)).map (fun e => e.id) := by
    have hflt : (⟨mkListenerId E h s, h, pr, true, s⟩ : Listener)
        ∈ ((getHandlers (bus.on E h pr true s).1 E
            ++ getHandlers (bus.on E h pr true s).1 "*").mergeSort listenerLe).filter
            (fun e => e.once) :=
      List.mem_filter.mpr ⟨hmemA, rfl⟩
    have hmm := List.mem_map_of_mem (fun e : Listener => e.id) hflt
    exact hmm
  have hne : (((getHandlers (bus.on E h pr true s).1 E
      ++ getHandlers (bus.on E h pr true s).1 "*").mergeSort listenerLe).filter
      (fun e => e.once)).map (fun e => e.id) ≠ [] := List.ne_nil_of_mem hidin
  have hsecondBus : ((bus.on E h pr true s).1.emit E data now raises).bus.countP
      (fun x => x.handlerId == h) = 0 := by
    unfold EventBus.countP
    rw [emit_bus_handlers_cases]
    simp only [List.isEmpty_eq_false.mpr hne, if_neg, Bool.false_eq_true, not_false_iff]
    have halk : alookup ((bus.on E h pr true s).1).handlers E
        = some (getHandlers (bus.on E h pr true s).1 E) := by
      rw [hexact]; exact alookup_on_self bus E h pr true s
    have hfc : ((getHandlers (bus.on E h pr true s).1 E).filter
        (fun x => !((((getHandlers (bus.on E h pr true s).1 E
            ++ getHandlers (bus.on E h pr true s).1 "*").mergeSort listenerLe).filter
            (fun e => e.once)).map (fun e => e.id)).contains x.id)).countP
        (fun x => x.handlerId == h) = 0 := by
      rw [List.countP_eq_zero]
      intro a ha
      rcases List.mem_filter.mp ha with ⟨hmem, hkeep⟩
      intro hpa
      rw [hexact, mem_mergeSort_listener, List.mem_append] at hmem
      rcases hmem with hmem | hmem
      · exact (List.countP_eq_zero.mp hbaseE a hmem) hpa
      · rw [List.mem_singleton] at hmem
        subst hmem
        rw [Bool.not_eq_true'] at hkeep
        have hcont : ((((getHandlers (bus.on E h pr true s).1 E
            ++ getHandlers (bus.on E h pr true s).1 "*").mergeSort listenerLe).filter
            (fun e => e.once)).map (fun e => e.id)).contains (mkListenerId E h s) = true := by
          simpa using hidin
        have hkeep2 : ((((getHandlers (bus.on E h pr true s).1 E
            ++ getHandlers (bus.on E h pr true s).1 "*").mergeSort listenerLe).filter
            (fun e => e.once)).map (fun e => e.id)).contains (mkListenerId E h s) = false :=
          hkeep
        rw [hcont] at hkeep2
        exact Bool.noConfusion hkeep2
    have hstep1 : mapCountP (fun x => x.handlerId == h)
        (removeOnceFrom ((bus.on E h pr true s).1).handlers E
          ((((getHandlers (bus.on E h pr true s).1 E
            ++ getHandlers (bus.on E h pr true s).1 "*").mergeSort listenerLe).filter
            (fun e => e.once)).map (fun e => e.id))) = 0 := by
      unfold removeOnceFrom
      simp only [halk]
      have heq := mapCountP_setEntry_some (fun x => x.handlerId == h)
        ((bus.on E h pr true s).1).handlers E
        (getHandlers (bus.on E h pr true s).1 E)
        ((getHandlers (bus.on E h pr true s).1 E).filter
          (fun x => !((((getHandlers (bus.on E h pr true s).1 E
            ++ getHandlers (bus.on E h pr true s).1 "*").mergeSort listenerLe).filter
            (fun e => e.once)).map (fun e => e.id)).contains x.id)) halk
      have hfresh0 : mapCountP (fun x => x.handlerId == h) bus.handlers = 0 := hfresh
      have hb1 : mapCountP (fun x => x.handlerId == h) ((bus.on E h pr true s).1).handlers
          = 1 := by
        have hco := countP_on bus E h pr true s (fun x => x.handlerId == h)
        unfold EventBus.countP at hco
        rw [hco, hfresh0]
        simp
      rw [hexactC] at heq
      rw [hfc] at heq
      omega
    exact Nat.le_zero.mp (hstep1 ▸ mapCountP_removeOnceFrom_le _ _ _ _)
  refine ⟨hfirst, hsecondBus, ?_⟩
  rw [emit_invoked, List.countP_map]
  have hcomp2 : ((fun t : Listener × String × Data => t.1.handlerId == h)
      ∘ (fun e : Listener => (e, E, data2))) = (fun x : Listener => x.handlerId == h) := rfl
  rw [hcomp2, countP_mergeSort, List.countP_append]
  have h1 := Nat.le_zero.mp (hsecondBus ▸ getHandlers_countP_le
    ((bus.on E h pr true s).1.emit E data now raises).bus E (fun x => x.handlerId == h))
  have h2 := Nat.le_zero.mp (hsecondBus ▸ getHandlers_countP_le
    ((bus.on E h pr true s).1.emit E data now raises).bus "*" (fun x => x.handlerId == h))
  omega

/-- C7, witness: the amended once-semantics theorem applied to a concrete
fresh bus, event and handler. -/
theorem C7_amended_witness :
    ("e" ≠ "*" ∧ EventBus.empty.countP (fun x => x.handlerId == 1) = 0)
    ∧ ((((EventBus.empty.on "e" 1 100 true "s").1.emit "e" [] "t" (fun _ => false)).invoked.countP
        (fun t => t.1.handlerId == 1) = 1)
      ∧ (((EventBus.empty.on "e" 1 100 true "s").1.emit "e" [] "t" (fun _ => false)).bus.countP
        (fun x => x.handlerId == 1) = 0)
      ∧ ((((EventBus.empty.on "e" 1 100 true "s").1.emit "e" [] "t" (fun _ => false)).bus.emit
          "e" [] "t2" (fun _ => false)).invoked.countP (fun t => t.1.handlerId == 1) = 0)) :=
  ⟨⟨by decide, by decide⟩,
   C7_amended EventBus.empty "e" 1 100 "s" [] [] "t" "t2" (fun _ => false) (fun _ => false)
     (by decide) (by decide)⟩

/-- C9, counterexample: after one publish, getHistory(0) returns the one
stored record rather than the most recent zero records, refuting the
general returns-the-most-recent-limit-records clause at limit 0. -/
theorem C9_counterexample :
    ((EventBus.empty.emit "e" [] "t" (fun _ => false)).bus.get_history 0).length = 1
    ∧ ¬ (((EventBus.empty.emit "e" [] "t" (fun _ => false)).bus.get_history 0).length = 0) := by
  decide

set_option maxRecDepth 10000 in
/-- C9, amended: the history is a bounded FIFO of capacity 100 evicting
oldest first — after 150 publishes getHistory(1000) returns exactly the
last 100 records oldest-to-newest — and for every limit of at least 1,
getHistory(limit) returns the most recent min(limit, stored) records,
newest last; each publish appends one record and drops the oldest
beyond the capacity, keeping the stored length at most 100. -/
theorem C9_amended :
    (((emitN 150 EventBus.empty).get_history 1000).length = 100
      ∧ (emitN 150 EventBus.empty).get_history 1000
          = ((List.range 150).drop 50).map
              (fun i => (⟨"e" ++ toString i, toString i, []⟩ : HistoryRecord)))
    ∧ (∀ (bus : EventBus) (limit : Int), 1 ≤ limit →
        bus.get_history limit
          = bus.eventHistory.drop (bus.eventHistory.length - limit.toNat))
    ∧ (∀ (bus : EventBus) (event : String) (data : Data) (now : String) (raises : Nat → Bool),
        bus.eventHistory.length ≤ historyLimit →
        (bus.emit event data now raises).bus.eventHistory
          = (bus.eventHistory ++ [(⟨event, now, data.map Prod.fst⟩ : HistoryRecord)]).drop
              ((bus.eventHistory.length + 1) - historyLimit)
        ∧ (bus.emit event data now raises).bus.eventHistory.length ≤ historyLimit) := by
  refine ⟨⟨by decide, by decide⟩, ?_, ?_⟩
  · intro bus limit hlim
    unfold EventBus.get_history pySliceFrom
    rw [if_neg (by omega)]
    have htn : (-(-limit)).toNat = limit.toNat := by omega
    rw [htn]
  · intro bus event data now raises hlen
    have heq : (bus.emit event data now raises).bus.eventHistory
        = (bus.eventHistory ++ [(⟨event, now, data.map Prod.fst⟩ : HistoryRecord)]).drop
            ((bus.eventHistory.length + 1) - historyLimit) := by
      rw [emit_bus_eventHistory]
      unfold EventBus.record_history
      simp only
      by_cases hc : historyLimit
          < (bus.eventHistory ++ [(⟨event, now, data.map Prod.fst⟩ : HistoryRecord)]).length
      · rw [if_pos hc]
        unfold pySliceFrom
        rw [if_neg (by decide)]
        congr 1
        rw [List.length_append]
        simp only [List.length_cons, List.length_nil]
        omega
      · rw [if_neg hc]
        rw [List.length_append] at hc
        simp only [List.length_cons, List.length_nil] at hc
        have h0 : (bus.eventHistory.length + 1) - historyLimit = 0 := by omega
        rw [h0, List.drop_zero]
    refine ⟨heq, ?_⟩
    rw [heq, List.length_drop, List.length_append]
    simp only [List.length_cons, List.length_nil]
    omega

/-- C9, witness: the general retrieval clause of the amended theorem
applied at limit 5 on a concrete bus, and the append-evict clause applied
to the empty bus. -/
theorem C9_amended_witness :
    ((1 : Int) ≤ 5
      ∧ (EventBus.empty.emit "e" [] "t" (fun _ => false)).bus.get_history 5
          = (EventBus.empty.emit "e" [] "t" (fun _ => false)).bus.eventHistory.drop
              ((EventBus.empty.emit "e" [] "t" (fun _ => false)).bus.eventHistory.length
                - (5 : Int).toNat))
    ∧ (EventBus.empty.eventHistory.length ≤ historyLimit
      ∧ (EventBus.empty.emit "e" [] "t" (fun _ => false)).bus.eventHistory
          = (EventBus.empty.eventHistory
              ++ [(⟨"e", "t", []⟩ : HistoryRecord)]).drop
              ((EventBus.empty.eventHistory.length + 1) - historyLimit)
      ∧ (EventBus.empty.emit "e" [] "t" (fun _ => false)).bus.eventHistory.length
          ≤ historyLimit) :=
  ⟨⟨by decide,
    C9_amended.2.1 (EventBus.empty.emit "e" [] "t" (fun _ => false)).bus 5 (by decide)⟩,
   by decide,
   (C9_amended.2.2 EventBus.empty "e" [] "t" (fun _ => false) (by decide)).1,
   (C9_amended.2.2 EventBus.empty "e" [] "t" (fun _ => false) (by decide)).2⟩

/-! Helper lemmas for the plugin-manager claims. -/

theorem getHandlers_emit_ne (bus : EventBus) (event : String) (data : Data)
    (now : String) (raises : Nat → Bool) (k : String)
    (h1 : k ≠ event) (h2 : k ≠ "*") :
    getHandlers (bus.emit event data now raises).bus k = getHandlers bus k := by
  unfold getHandlers
  rw [emit_bus_handlers_cases]
  simp only
  by_cases hemp : (((((getHandlers bus event) ++ (getHandlers bus "*")).mergeSort
      listenerLe).filter (fun e => e.once)).map (fun e => e.id)).isEmpty
  · rw [if_pos hemp]
  · rw [if_neg hemp, alookup_removeOnceFrom_ne _ _ _ _ h2,
      alookup_removeOnceFrom_ne _ _ _ _ h1]

theorem runActivateSubs_single (bus : EventBus) (r : SubReq) :
    runActivateSubs bus [r] = (bus.on r.event r.handlerId r.priority r.once r.source).1 := rfl

/-- C2, counterexample: activating a plugin whose activate() subscribes
one listener tagged with the plugin's own name and then raises leaves
the plugin inactive while one listener tagged with its name remains on
the bus — refuting the unconditional zero-subscriptions invariant for
active=false. -/
theorem C2_counterexample :
    ((mgrLeaky.activate_plugin "p" "t").2 = false)
    ∧ ((mgrLeaky.activate_plugin "p" "t").1.is_active "p" = false)
    ∧ ((mgrLeaky.activate_plugin "p" "t").1.bus.countP (fun x => x.source == "p") = 1)
    ∧ ¬ ((mgrLeaky.activate_plugin "p" "t").1.bus.countP (fun x => x.source == "p") = 0) := by
  decide

/-- C2, amended: active=false does not unconditionally imply zero
listeners tagged with the plugin's name. If a registered, inactive
plugin's activate() installs a subscription tagged with the plugin's
name (on an ordinary event) and then raises, activate_plugin returns
False and leaves the plugin inactive, yet exactly that listener remains
on the bus; the invariant holds only for states not reached through such
a partially failed activation. -/
theorem C2_amended (m : PluginManager) (name e : String) (h : Nat) (pr : Int) (o : Bool)
    (entry : PluginEntry) (now : String)
    (hlk : alookup m.plugins name = some entry)
    (hinact : entry.active = false)
    (hraise : entry.inst.activateRaises = true)
    (hsubs : entry.inst.activateSubs = [⟨e, h, pr, o, name⟩])
    (he1 : e ≠ "plugin.error") (he2 : e ≠ "*")
    (h0 : m.bus.countP (fun x => x.source == name) = 0) :
    ((m.activate_plugin name now).2 = false)
    ∧ ((m.activate_plugin name now).1.is_active name = false)
    ∧ ((m.activate_plugin name now).1.bus.countP (fun x => x.source == name) = 1) := by
  have hnewP : (fun x : Listener => x.source == name)
      (⟨mkListenerId e h name, h, pr, o, name⟩ : Listener) = true := by simp
  have hbus1 : runActivateSubs m.bus entry.inst.activateSubs
      = (m.bus.on e h pr o name).1 := by rw [hsubs, runActivateSubs_single]
  have hbus1c : ((m.bus.on e h pr o name).1).countP (fun x => x.source == name) = 1 := by
    rw [countP_on, h0]
    simp
  have hbase : (getHandlers m.bus e).countP (fun x => x.source == name) = 0 :=
    Nat.le_zero.mp (h0 ▸ getHandlers_countP_le m.bus e (fun x => x.source == name))
  have hatE : (getHandlers (m.bus.on e h pr o name).1 e).countP
      (fun x => x.source == name) = 1 := by
    rw [getHandlers_on_self, countP_mergeSort, List.countP_append, hbase]
    simp [List.countP_cons, List.countP_nil]
  unfold PluginManager.activate_plugin
  simp only [hlk, hinact, hraise, Bool.false_eq_true, if_false, eq_self_iff_true, if_true]
  refine ⟨trivial, ?_, ?_⟩
  · unfold PluginManager.is_active
    simp only [alookup_setEntry_self]
  · rw [hbus1]
    have hup : ((m.bus.on e h pr o name).1.emitState "plugin.error"
        [("name", name), ("error", entry.inst.activateErrMsg)] now).countP
        (fun x => x.source == name) ≤ 1 :=
      hbus1c ▸ countP_emitState_le _ _ _ _ _
    have hlow : 1 ≤ ((m.bus.on e h pr o name).1.emitState "plugin.error"
        [("name", name), ("error", entry.inst.activateErrMsg)] now).countP
        (fun x => x.source == name) := by
      have hkeep : getHandlers ((m.bus.on e h pr o name).1.emitState "plugin.error"
          [("name", name), ("error", entry.inst.activateErrMsg)] now) e
          = getHandlers (m.bus.on e h pr o name).1 e :=
        getHandlers_emit_ne _ _ _ _ _ e he1 he2
      have := getHandlers_countP_le ((m.bus.on e h pr o name).1.emitState "plugin.error"
          [("name", name), ("error", entry.inst.activateErrMsg)] now) e
          (fun x => x.source == name)
      rw [hkeep, hatE] at this
      exact this
    omega

/-- C2, witness: the amended leaked-subscription theorem applied to the
concrete manager holding the leaky plugin. -/
theorem C2_amended_witness :
    (alookup mgrLeaky.plugins "p" = some ⟨instLeaky, false, none⟩
      ∧ (⟨instLeaky, false, none⟩ : PluginEntry).active = false
      ∧ instLeaky.activateRaises = true
      ∧ instLeaky.activateSubs = [⟨"e", 7, 100, false, "p"⟩]
      ∧ "e" ≠ "plugin.error" ∧ "e" ≠ "*"
      ∧ mgrLeaky.bus.countP (fun x => x.source == "p") = 0)
    ∧ (((mgrLeaky.activate_plugin "p" "t").2 = false)
      ∧ ((mgrLeaky.activate_plugin "p" "t").1.is_active "p" = false)
      ∧ ((mgrLeaky.activate_plugin "p" "t").1.bus.countP (fun x => x.source == "p") = 1)) :=
  ⟨⟨by decide, by decide, by decide, by decide, by decide, by decide, by decide⟩,
   C2_amended mgrLeaky "p" "e" 7 100 false ⟨instLeaky, false, none⟩ "t"
     (by decide) (by decide) (by decide) (by decide) (by decide) (by decide) (by decide)⟩

/-- C5: deactivating an active plugin always returns True, leaves zero
listeners tagged with the plugin's name on the bus, marks the plugin
inactive and persists enabled=False in the config document — regardless
of what the plugin's own deactivate() does (a raising deactivate() is
caught before the unconditional off_all cleanup). -/
theorem C5_deactivate_cleanup (m : PluginManager) (name : String) (now : String)
    (hact : m.is_active name = true) :
    ((m.deactivate_plugin name now).2 = true)
    ∧ ((m.deactivate_plugin name now).1.bus.countP (fun x => x.source == name) = 0)
    ∧ ((m.deactivate_plugin name now).1.is_active name = false)
    ∧ ((alookup (m.deactivate_plugin name now).1.configs name).map (fun r => r.enabled)
        = some (some false)) := by
  unfold PluginManager.is_active at hact
  cases hlk : alookup m.plugins name with
  | none => rw [hlk] at hact; exact absurd hact (by simp)
  | some entry =>
    simp only [hlk] at hact
    unfold PluginManager.deactivate_plugin
    simp only [hlk, hact, Bool.not_true, Bool.false_eq_true, if_false]
    refine ⟨trivial, ?_, ?_, ?_⟩
    · exact countP_emitState_zero _ _ _ _ _ (countP_off_all m.bus name)
    · unfold PluginManager.is_active
      unfold PluginManager.update_config
      simp only [alookup_setEntry_self]
    · unfold PluginManager.update_config
      simp only [alookup_setEntry_self]
      rfl

/-- C5, witness: the guaranteed-cleanup theorem applied to a concrete
manager holding an active plugin whose deactivate() raises and whose
activate-time listener is on the bus. -/
theorem C5_deactivate_cleanup_witness :
    (mgrActive.is_active "q" = true)
    ∧ (((mgrActive.deactivate_plugin "q" "t").2 = true)
      ∧ ((mgrActive.deactivate_plugin "q" "t").1.bus.countP (fun x => x.source == "q") = 0)
      ∧ ((mgrActive.deactivate_plugin "q" "t").1.is_active "q" = false)
      ∧ ((alookup (mgrActive.deactivate_plugin "q" "t").1.configs "q").map (fun r => r.enabled)
          = some (some false))) :=
  ⟨by decide, C5_deactivate_cleanup mgrActive "q" "t" (by decide)⟩

/-! Helper lemmas for the loader and config-merge claims. -/

theorem findPluginClass_eq_none_iff (attrs : List ModuleAttr) :
    findPluginClass attrs = none ↔ ∀ a ∈ attrs, qualifies a = false := by
  unfold findPluginClass
  rw [List.find?_eq_none]
  constructor
  · intro hall a ha
    have := hall a ((List.mergeSort_perm attrs attrNameLe).mem_iff.mpr ha)
    simpa using this
  · intro hall a ha
    have := hall a ((List.mergeSort_perm attrs attrNameLe).mem_iff.mp ha)
    simp [this]

theorem load_plugin_of_no_class (m : PluginManager) (u : PluginUnit) (now : String)
    (hall : ∀ a ∈ u.attrs, qualifies a = false) :
    m.load_plugin u now = .error "BasePlugin subclass not found" := by
  unfold PluginManager.load_plugin
  simp only [(findPluginClass_eq_none_iff u.attrs).mpr hall]

theorem processUnit_of_no_class (m : PluginManager) (u : PluginUnit) (now : String)
    (hall : ∀ a ∈ u.attrs, qualifies a = false) :
    m.processUnit u now = m := by
  unfold PluginManager.processUnit
  by_cases hskip : (!u.isDir || startsWithChar u.dirName '_' || startsWithChar u.dirName '.'
      || !u.hasPluginFile)
  · rw [if_pos hskip]
  · rw [if_neg hskip]
    simp only [load_plugin_of_no_class m u now hall]

theorem alookup_append {β : Type} (A B : List (String × β)) (k : String) :
    alookup (A ++ B) k
      = (match alookup A k with | some v => some v | none => alookup B k) := by
  induction A with
  | nil => simp [alookup]
  | cons kv rest ih =>
    by_cases hh : kv.1 = k <;> simp [alookup, hh, ih]

theorem alookup_map_override (d s2 : ConfigDict) (k : String) :
    alookup (d.map (fun kv => match alookup s2 kv.1 with
        | some v => (kv.1, v)
        | none => kv)) k
      = (match alookup d k with
         | none => none
         | some v => (match alookup s2 k with | some w => some w | none => some v)) := by
  induction d with
  | nil => simp [alookup]
  | cons kv rest ih =>
    by_cases hh : kv.1 = k
    · subst hh
      cases hs : alookup s2 kv.1 <;> simp [alookup, hs]
    · cases hs : alookup s2 kv.1 <;> simp [alookup, hh, hs, ih]

theorem alookup_filter_isNone (d s2 : ConfigDict) (k : String) :
    alookup (s2.filter (fun kv => (alookup d kv.1).isNone)) k
      = (match alookup d k with
         | some _ => none
         | none => alookup s2 k) := by
  induction s2 with
  | nil => cases alookup d k <;> simp [alookup]
  | cons kv rest ih =>
    by_cases hh : kv.1 = k
    · subst hh
      cases hd : alookup d kv.1
      · simp [List.filter_cons, hd, alookup, ih]
      · simp [List.filter_cons, hd, alookup, ih]
    · cases hdk : alookup d kv.1 <;>
        simp [List.filter_cons, hdk, alookup, hh, ih]

/-- Merge semantics of the Python dict union used for configs: a key
takes its value from the right operand when present there, else from the
left operand. -/
theorem alookup_pyDictUpdate (d s2 : ConfigDict) (k : String) :
    alookup (pyDictUpdate d s2) k
      = (match alookup s2 k with | some v => some v | none => alookup d k) := by
  unfold pyDictUpdate
  rw [alookup_append, alookup_map_override, alookup_filter_isNone]
  cases hd : alookup d k <;> cases hs : alookup s2 k <;> simp

/-- C3, counterexample: a plugin unit whose module defines two qualifying
BasePlugin subclasses does not fail to load — the loader registers the
alphabetically-first class (it guesses) — refuting the
more-than-one-implementer-fails clause at a concrete input. -/
theorem C3_counterexample :
    (attrAlpha ∈ unitDup.attrs ∧ attrBeta ∈ unitDup.attrs
      ∧ ¬ (attrAlpha = attrBeta)
      ∧ qualifies attrAlpha = true ∧ qualifies attrBeta = true)
    ∧ (mgrEmpty.load_plugin unitDup "t" = .ok (mgrEmpty.register_plugin instAlpha "t"))
    ∧ ((alookup (mgrEmpty.processUnit unitDup "t").plugins "alpha").isSome = true) := by
  refine ⟨by decide, ?_, by decide⟩
  rfl

/-- C3, amended: a plugin unit with zero qualifying locally-defined
types fails to load (ImportError), is skipped, and discovery continues
with the remaining units unaffected; a unit with at least one qualifying
type loads the first one in sorted attribute order (when several
qualify, the loader guesses that one rather than failing); the search
returns nothing exactly when no attribute qualifies. -/
theorem C3_amended :
    (∀ (u : PluginUnit) (m : PluginManager) (now : String),
        (∀ a ∈ u.attrs, qualifies a = false) →
        (m.load_plugin u now = .error "BasePlugin subclass not found"
         ∧ m.processUnit u now = m))
    ∧ (∀ (m : PluginManager) (u : PluginUnit) (rest : List PluginUnit) (now : String),
        (∀ a ∈ u.attrs, qualifies a = false) →
        m.discover_plugins (u :: rest) now = m.discover_plugins rest now)
    ∧ (∀ (u : PluginUnit) (m : PluginManager) (now : String) (a : ModuleAttr),
        findPluginClass u.attrs = some a →
        m.load_plugin u now = .ok (m.register_plugin a.instanceOf now))
    ∧ (∀ attrs : List ModuleAttr,
        findPluginClass attrs = none ↔ ∀ a ∈ attrs, qualifies a = false) := by
  refine ⟨?_, ?_, ?_, findPluginClass_eq_none_iff⟩
  · intro u m now hall
    exact ⟨load_plugin_of_no_class m u now hall, processUnit_of_no_class m u now hall⟩
  · intro m u rest now hall
    unfold PluginManager.discover_plugins
    rw [List.foldl_cons, processUnit_of_no_class m u now hall]
  · intro u m now a hfind
    unfold PluginManager.load_plugin
    simp only [hfind]

/-- C3, witness: the amended loader theorem applied to a concrete unit
with no qualifying attribute and to the concrete two-implementer unit. -/
theorem C3_amended_witness :
    ((∀ a ∈ unitEmptyMod.attrs, qualifies a = false)
      ∧ (mgrEmpty.load_plugin unitEmptyMod "t" = .error "BasePlugin subclass not found"
         ∧ mgrEmpty.processUnit unitEmptyMod "t" = mgrEmpty))
    ∧ (findPluginClass unitDup.attrs = some attrAlpha
      ∧ mgrEmpty.load_plugin unitDup "t"
          = .ok (mgrEmpty.register_plugin attrAlpha.instanceOf "t")) :=
  ⟨⟨by decide, C3_amended.1 unitEmptyMod mgrEmpty "t" (by decide)⟩,
   ⟨by decide, C3_amended.2.2.1 unitDup mgrEmpty "t" attrAlpha (by decide)⟩⟩

/-- C8: with declared defaults a=1, b=2 and persisted config a=9, the
effective in-memory config at load is a=9, b=2 (persisted overrides
defaults, default-only keys kept); updateConfig(name, b=7) then yields
effective config a=9, b=7, and the persisted document under the plugin
name holds the same merged config when the call returns; in general a
merged dict takes each key from the overriding dict when present there,
else from the base dict. -/
theorem C8_config_merge :
    ((alookup (mgrCfg.register_plugin instCfg "t0").plugins "p").map
        (fun en => en.inst.config) = some [("a", 9), ("b", 2)])
    ∧ ((alookup ((mgrCfg.register_plugin instCfg "t0").update_plugin_config "p"
          [("b", 7)]).1.plugins "p").map (fun en => en.inst.config)
        = some [("a", 9), ("b", 7)])
    ∧ ((alookup ((mgrCfg.register_plugin instCfg "t0").update_plugin_config "p"
          [("b", 7)]).1.configs "p").map (fun r => r.config)
        = some (some [("a", 9), ("b", 7)]))
    ∧ (∀ (d s2 : ConfigDict) (k : String),
        alookup (pyDictUpdate d s2) k
          = (match alookup s2 k with | some v => some v | none => alookup d k)) :=
  ⟨by decide, by decide, by decide, alookup_pyDictUpdate⟩

/-- C6, witness: the fault-isolation theorem applied to a concrete bus
with one listener whose handler raises. -/
theorem C6_dispatch_fault_isolation_witness :
    ((EventBus.empty.on "e" 1 100 false "s1").1.emit "e" [] "t" (fun x => x == 1)).invoked
      = ((EventBus.empty.on "e" 1 100 false "s1").1.emit "e" [] "t" (fun _ => false)).invoked
    ∧ ((EventBus.empty.on "e" 1 100 false "s1").1.emit "e" [] "t" (fun x => x == 1)).bus
      = ((EventBus.empty.on "e" 1 100 false "s1").1.emit "e" [] "t" (fun _ => false)).bus
    ∧ (∀ t ∈ ((EventBus.empty.on "e" 1 100 false "s1").1.emit "e" [] "t"
        (fun x => x == 1)).invoked, t.2.1 = "e" ∧ t.2.2 = ([] : Data))
    ∧ ((EventBus.empty.on "e" 1 100 false "s1").1.emit "e" [] "t"
        (fun x => x == 1)).errorsLogged
      = ((((getHandlers (EventBus.empty.on "e" 1 100 false "s1").1 "e")
            ++ (getHandlers (EventBus.empty.on "e" 1 100 false "s1").1 "*")).mergeSort
            listenerLe).filter (fun e => (fun x => x == 1) e.handlerId)).map
          (fun e => ("e", e.source)) :=
  C6_dispatch_fault_isolation (EventBus.empty.on "e" 1 100 false "s1").1 "e" [] "t"
    (fun x => x == 1)

end AttentionOS
